import Mathlib

/-!
Shallow embedding of the hackathon-evaluation scripts of this repository
(`src/eval.py`, `src/eval1.py`, `src/eval2.py`, `src/evaltable.py`).

Strings are modelled as `List Char`.  Python's file-system / library calls
(`open(path).read()`, `pdfminer.extract_text`, `fitz`, `docx2txt.process`,
`pptx.Presentation`) are external collaborators: each archive member is
modelled as a record carrying the outcome (`Except` of error message /
returned text) each of those calls would produce for it.  The LLM endpoint
is likewise external: a batch entry carries either the decoded reply or the
exception message its processing would raise.
-/

/-- Convert a Lean string literal to the `List Char` representation used
throughout this development. -/
def strL (s : String) : List Char := s.toList

/-- Python `str.lower` restricted to ASCII, per character (model of the
`f.lower()` call in `extract_submission_text`). -/
def lowerStr (s : List Char) : List Char := s.map Char.toLower

/-- The characters Python's `str.strip()` removes by default. -/
def pySpace (c : Char) : Bool :=
  c == ' ' || c == '\t' || c == '\n' || c == '\r' || c == '\x0b' || c == '\x0c'

/-- Python `str.strip()`: drop leading and trailing whitespace. -/
def pyStrip (s : List Char) : List Char :=
  ((s.dropWhile pySpace).reverse.dropWhile pySpace).reverse

/-- The substring after the last `'.'` of a name; the whole name when it has
no dot.  This is exactly Python's `name.split(".")[-1]`. -/
def afterLastDot (s : List Char) : List Char :=
  (s.reverse.takeWhile (fun c => c ≠ '.')).reverse

/-- Model of `f.lower().split(".")[-1]` from `extract_submission_text`. -/
def extOf (name : List Char) : List Char := afterLastDot (lowerStr name)

/-- Number of (possibly overlapping) occurrences of `pat` in `s`. -/
def countOccur (pat s : List Char) : Nat :=
  (List.range (s.length + 1)).countP (fun i => ((s.drop i).take pat.length) == pat)

/-- Index of the first character satisfying `p`, if any. -/
def firstIdx (p : Char → Bool) : List Char → Option Nat
  | [] => none
  | c :: cs => if p c then some 0 else (firstIdx p cs).map (· + 1)

/-- Index of the last occurrence of `c` in `l`, if any. -/
def lastIdxOf (c : Char) (l : List Char) : Option Nat :=
  match firstIdx (· == c) l.reverse with
  | none => none
  | some k => some (l.length - 1 - k)

/-- Model of `re.search(r"\x7b[\s\S]*\x7d", raw)`: the (greedy, leftmost)
match runs from the first `'\x7b'` of the text to the last `'\x7d'`, provided
that closing brace lies strictly after the opening one; otherwise there is
no match. -/
def jsonCandidate (s : List Char) : Option (List Char) :=
  match firstIdx (· == '\x7b') s with
  | none => none
  | some i =>
    let rest := s.drop i
    match lastIdxOf '\x7d' (rest.drop 1) with
    | none => none
    | some j => some (rest.take (j + 2))

/-- JSON values as decoded by Python's `json.loads`.  A number is modelled
exactly as the decimal `m / 10 ^ e` (so `7` is `num 7 0` and `2.5` is
`num 25 1`); this keeps all arithmetic on `Int`/`Nat` and hence kernel
computable. -/
inductive Json where
  | null
  | bool (b : Bool)
  | num (m : Int) (e : Nat)
  | str (s : List Char)
  | arr (elems : List Json)
  | obj (fields : List (List Char × Json))

/-- JSON insignificant whitespace. -/
def jsonWs (c : Char) : Bool :=
  c == ' ' || c == '\t' || c == '\n' || c == '\r'

/-- Drop leading JSON whitespace. -/
def skipWs (s : List Char) : List Char := s.dropWhile jsonWs

/-- Hexadecimal digit value, if `c` is a hex digit. -/
def hexVal (c : Char) : Option Nat :=
  if '0' ≤ c ∧ c ≤ '9' then some (c.toNat - 48)
  else if 'a' ≤ c ∧ c ≤ 'f' then some (c.toNat - 97 + 10)
  else if 'A' ≤ c ∧ c ≤ 'F' then some (c.toNat - 65 + 10)
  else none

/-- Parse the body of a JSON string literal (the opening quote already
consumed), returning the decoded characters and the rest of the input. -/
def parseStrBody : Nat → List Char → Option (List Char × List Char)
  | 0, _ => none
  | _ + 1, [] => none
  | fuel + 1, c :: cs =>
    if c == '"' then some ([], cs)
    else if c == '\\' then
      match cs with
      | [] => none
      | e :: cs' =>
        let cont (d : Char) (rest : List Char) : Option (List Char × List Char) :=
          match parseStrBody fuel rest with
          | some (tl, rem) => some (d :: tl, rem)
          | none => none
        if e == '"' then cont '"' cs'
        else if e == '\\' then cont '\\' cs'
        else if e == '/' then cont '/' cs'
        else if e == 'b' then cont '\x08' cs'
        else if e == 'f' then cont '\x0c' cs'
        else if e == 'n' then cont '\n' cs'
        else if e == 'r' then cont '\r' cs'
        else if e == 't' then cont '\t' cs'
        else if e == 'u' then
          match cs' with
          | h1 :: h2 :: h3 :: h4 :: cs'' =>
            match hexVal h1, hexVal h2, hexVal h3, hexVal h4 with
            | some a, some b, some c', some d =>
              cont (Char.ofNat (((a * 16 + b) * 16 + c') * 16 + d)) cs''
            | _, _, _, _ => none
          | _ => none
        else none
    else
      match parseStrBody fuel cs with
      | some (tl, rem) => some (c :: tl, rem)
      | none => none

/-- Digits prefix of the input, as a list, with the rest. -/
def takeDigits (s : List Char) : List Char × List Char :=
  (s.takeWhile (fun c => '0' ≤ c ∧ c ≤ '9'), s.dropWhile (fun c => '0' ≤ c ∧ c ≤ '9'))

/-- Numeric value of a digit list. -/
def digitsVal (ds : List Char) : Nat :=
  ds.foldl (fun acc c => acc * 10 + (c.toNat - 48)) 0

/-- Parse a JSON number (sign, integer part, optional fraction, optional
exponent), returning its decimal value `(m, e)` (meaning `m / 10 ^ e`) and
the rest of the input. -/
def parseNum (s : List Char) : Option ((Int × Nat) × List Char) :=
  let (neg, s1) := match s with
    | '-' :: rest => (true, rest)
    | _ => (false, s)
  let (ints, s2) := takeDigits s1
  if ints.isEmpty then none
  else
    let (fracs, s3) := match s2 with
      | '.' :: rest =>
        let (ds, r) := takeDigits rest
        (ds, if ds.isEmpty then s2 else r)
      | _ => ([], s2)
    if s2 ≠ s3 ∧ fracs.isEmpty then none
    else
      let (expo, s4) : Int × List Char := match s3 with
        | 'e' :: rest | 'E' :: rest =>
          let (esign, r1) : Bool × List Char := match rest with
            | '-' :: r => (true, r)
            | '+' :: r => (false, r)
            | _ => (false, rest)
          let (eds, r2) := takeDigits r1
          if eds.isEmpty then (0, s3)
          else ((if esign then -(digitsVal eds : Int) else (digitsVal eds : Int)), r2)
        | _ => (0, s3)
      let mant : Nat := digitsVal ints * 10 ^ fracs.length + digitsVal fracs
      let base : Int := if neg then -(mant : Int) else (mant : Int)
      let (m, e) : Int × Nat :=
        if expo ≥ 0 then (base * 10 ^ expo.toNat, fracs.length)
        else (base, fracs.length + expo.natAbs)
      some ((m, e), s4)

mutual

/-- Recursive-descent parser for a JSON value (model of `json.loads`).
Returns the value and the unconsumed rest of the input. -/
def parseVal : Nat → List Char → Option (Json × List Char)
  | 0, _ => none
  | fuel + 1, s =>
    match skipWs s with
    | [] => none
    | c :: cs =>
      if c == '\x7b' then
        match skipWs cs with
        | '\x7d' :: rest => some (.obj [], rest)
        | _ => match parseObjFields fuel cs with
          | some (fs, rest) => some (.obj fs, rest)
          | none => none
      else if c == '[' then
        match skipWs cs with
        | ']' :: rest => some (.arr [], rest)
        | _ => match parseArrElems fuel cs with
          | some (es, rest) => some (.arr es, rest)
          | none => none
      else if c == '"' then
        match parseStrBody (cs.length + 1) cs with
        | some (str, rest) => some (.str str, rest)
        | none => none
      else if c == 't' then
        match cs with
        | 'r' :: 'u' :: 'e' :: rest => some (.bool true, rest)
        | _ => none
      else if c == 'f' then
        match cs with
        | 'a' :: 'l' :: 's' :: 'e' :: rest => some (.bool false, rest)
        | _ => none
      else if c == 'n' then
        match cs with
        | 'u' :: 'l' :: 'l' :: rest => some (.null, rest)
        | _ => none
      else
        match parseNum (c :: cs) with
        | some ((m, e), rest) => some (.num m e, rest)
        | none => none

/-- Parse the members of a JSON object, starting after the opening brace,
up to and including the closing brace. -/
def parseObjFields : Nat → List Char → Option (List (List Char × Json) × List Char)
  | 0, _ => none
  | fuel + 1, s =>
    match skipWs s with
    | '"' :: cs =>
      match parseStrBody (cs.length + 1) cs with
      | some (key, rest) =>
        (match skipWs rest with
         | ':' :: rest2 =>
           (match parseVal fuel rest2 with
            | some (v, rest3) =>
              (match skipWs rest3 with
               | ',' :: rest4 =>
                 (match parseObjFields fuel rest4 with
                  | some (fs, rest5) => some ((key, v) :: fs, rest5)
                  | none => none)
               | '\x7d' :: rest4 => some ([(key, v)], rest4)
               | _ => none)
            | none => none)
         | _ => none)
      | none => none
    | _ => none

/-- Parse the elements of a JSON array, starting after the opening bracket,
up to and including the closing bracket. -/
def parseArrElems : Nat → List Char → Option (List Json × List Char)
  | 0, _ => none
  | fuel + 1, s =>
    match parseVal fuel s with
    | some (v, rest) =>
      (match skipWs rest with
       | ',' :: rest2 =>
         (match parseArrElems fuel rest2 with
          | some (es, rest3) => some (v :: es, rest3)
          | none => none)
       | ']' :: rest2 => some ([v], rest2)
       | _ => none)
    | none => none

end

/-- Model of `json.loads s`: a single JSON document with nothing but
whitespace around it. -/
def jsonLoads (s : List Char) : Option Json :=
  match parseVal (s.length + 1) s with
  | some (v, rest) => if skipWs rest = [] then some v else none
  | none => none

/-- First value bound to key `k` in an association list (Python `dict`
built by `json.loads` has unique keys, later duplicates overwriting
earlier ones; the model searches from the right accordingly). -/
def jsonGet (k : List Char) (j : Json) : Option Json :=
  match j with
  | .obj fields => (fields.reverse.find? (fun kv => kv.1 == k)).map (·.2)
  | _ => none

/-- Tail of `evaluate_submission` in `src/eval2.py` (and `src/evaltable.py`):
extract the first-`\x7b`-to-last-`\x7d` substring of the raw reply, try to
decode it, and fall back to the `\x7b"error": "Invalid JSON", "raw": raw\x7d`
sentinel when there is no match or the decode fails.  No code path raises:
the `json.JSONDecodeError` is swallowed by the `except` clause. -/
def parse_model_reply (raw : List Char) : Json :=
  match jsonCandidate raw with
  | some cand =>
    match jsonLoads cand with
    | some v => v
    | none => .obj [(strL "error", .str (strL "Invalid JSON")), (strL "raw", .str raw)]
  | none => .obj [(strL "error", .str (strL "Invalid JSON")), (strL "raw", .str raw)]

/-- The coarse per-extension categories of `extract_submission_text`'s
dispatch (same if-chain in all four scripts). -/
inductive FileCat where
  | code
  | pdfDoc
  | docxDoc
  | slides
  | note
  | video
  | unsupported
  deriving DecidableEq

/-- The extension if-chain of `extract_submission_text`, in source order:
`py`, `pdf`, `docx`, `pptx`, `txt`/`md`, `mp4`/`mov`/`mkv`, else. -/
def extCategory (e : List Char) : FileCat :=
  if e = strL "py" then .code
  else if e = strL "pdf" then .pdfDoc
  else if e = strL "docx" then .docxDoc
  else if e = strL "pptx" then .slides
  else if e = strL "txt" ∨ e = strL "md" then .note
  else if e = strL "mp4" ∨ e = strL "mov" ∨ e = strL "mkv" then .video
  else .unsupported

/-- Category chosen for a file name: the dispatch key is
`f.lower().split(".")[-1]`. -/
def dispatchCat (name : List Char) : FileCat := extCategory (extOf name)

/-- One member of an extracted archive.  The file-system and
document-library calls the extractor can make on it are external
collaborators; the record carries the outcome each call would produce
(`.error msg` models the call raising with message `msg`). -/
structure SFile where
  name : List Char
  /-- `open(path, encoding="utf-8").read()` -/
  readText : Except (List Char) (List Char)
  /-- `pdfminer.high_level.extract_text(path)` -/
  pdfminerText : Except (List Char) (List Char)
  /-- `fitz.open(path)` and per-page `get_text("text")` -/
  fitzPages : Except (List Char) (List (List Char))
  /-- `docx2txt.process(path)` -/
  docxText : Except (List Char) (List Char)
  /-- the `shape.text` of all shapes with a text attribute, slides in order -/
  pptxShapes : Except (List Char) (List (List Char))

/-- `"\n\n[FILE: name - CODE]\n" + text` -/
def codeBlock (n t : List Char) : List Char :=
  strL "\n\n[FILE: " ++ n ++ strL " - CODE]\n" ++ t

/-- `"\n\n[FILE: name - DOCUMENT]\n"` -/
def docHeader (n : List Char) : List Char :=
  strL "\n\n[FILE: " ++ n ++ strL " - DOCUMENT]\n"

/-- `"\n\n[FILE: name - SLIDES]\n"` -/
def slidesHeader (n : List Char) : List Char :=
  strL "\n\n[FILE: " ++ n ++ strL " - SLIDES]\n"

/-- `"\n\n[FILE: name]\n" + text` (the `txt`/`md` branch) -/
def noteBlock (n t : List Char) : List Char :=
  strL "\n\n[FILE: " ++ n ++ strL "]\n" ++ t

/-- The per-file `except` clause:
`"\n\n[FILE: name - ERROR]\nCould not read this file (msg)"`. -/
def errBlock (n msg : List Char) : List Char :=
  strL "\n\n[FILE: " ++ n ++ strL " - ERROR]\nCould not read this file (" ++ msg ++ strL ")"

/-- The `else` branch of `src/eval.py` / `src/eval1.py`:
`"\n\n[FILE: name - SKIPPED]\nUnsupported file type."`. -/
def skipBlock (n : List Char) : List Char :=
  strL "\n\n[FILE: " ++ n ++ strL " - SKIPPED]\nUnsupported file type."

/-- The video placeholder of `src/eval.py`. -/
def videoBlockA (n : List Char) : List Char :=
  strL "\n\n[FILE: " ++ n ++ strL " - VIDEO]\n(Video file detected — textual content not extracted)"

/-- The video placeholder of `src/eval1.py` (trailing period). -/
def videoBlockB (n : List Char) : List Char :=
  strL "\n\n[FILE: " ++ n ++ strL " - VIDEO]\n(Video file detected — textual content not extracted.)"

/-- The video placeholder of `src/eval2.py` / `src/evaltable.py`. -/
def videoBlockC (n : List Char) : List Char :=
  strL "\n\n[FILE: " ++ n ++ strL " - VIDEO]\n(Video detected – textual content skipped.)"

/-- The `pdf` branch shared by all four scripts: primary `pdfminer`
extraction, falling back to PyMuPDF when it raises or yields fewer than 20
stripped characters (`raise ValueError("Low text extraction")`); a raise of
the fallback itself propagates to the per-file `except`. -/
def pdfText (f : SFile) : Except (List Char) (List Char) :=
  match f.pdfminerText with
  | .ok t => if (pyStrip t).length < 20 then f.fitzPages.map List.flatten else .ok t
  | .error _ => f.fitzPages.map List.flatten

/-- Text contributed by one archive member in `src/eval.py`'s
`extract_submission_text`.  The `pdf`/`pptx` branches append their header
in a separate `+=` before the library call, so a raise there leaves the
header followed by the error marker; the other branches append header and
content in a single `+=`. -/
def fileBlockA (f : SFile) : List Char :=
  match dispatchCat f.name with
  | .code =>
    match f.readText with
    | .ok t => codeBlock f.name t
    | .error e => errBlock f.name e
  | .pdfDoc =>
    docHeader f.name ++
      (match pdfText f with
       | .ok t => t
       | .error e => errBlock f.name e)
  | .docxDoc =>
    match f.docxText with
    | .ok t => docHeader f.name ++ t
    | .error e => errBlock f.name e
  | .slides =>
    slidesHeader f.name ++
      (match f.pptxShapes with
       | .ok ts => List.intercalate (strL "\n") ts
       | .error e => errBlock f.name e)
  | .note =>
    match f.readText with
    | .ok t => noteBlock f.name t
    | .error e => errBlock f.name e
  | .video => videoBlockA f.name
  | .unsupported => skipBlock f.name

/-- Text contributed by one archive member in `src/eval1.py` (differs from
`src/eval.py` only in the slide join — `shape.text + "\n"` per shape
instead of `"\n".join` — and the video placeholder text). -/
def fileBlockB (f : SFile) : List Char :=
  match dispatchCat f.name with
  | .code =>
    match f.readText with
    | .ok t => codeBlock f.name t
    | .error e => errBlock f.name e
  | .pdfDoc =>
    docHeader f.name ++
      (match pdfText f with
       | .ok t => t
       | .error e => errBlock f.name e)
  | .docxDoc =>
    match f.docxText with
    | .ok t => docHeader f.name ++ t
    | .error e => errBlock f.name e
  | .slides =>
    slidesHeader f.name ++
      (match f.pptxShapes with
       | .ok ts => (ts.map (· ++ strL "\n")).flatten
       | .error e => errBlock f.name e)
  | .note =>
    match f.readText with
    | .ok t => noteBlock f.name t
    | .error e => errBlock f.name e
  | .video => videoBlockB f.name
  | .unsupported => skipBlock f.name

/-- Text contributed by one archive member in `src/eval2.py` and
`src/evaltable.py` (their `extract_submission_text` bodies are identical).
There is no `else` branch: a file of unsupported extension contributes
nothing. -/
def fileBlockC (f : SFile) : List Char :=
  match dispatchCat f.name with
  | .code =>
    match f.readText with
    | .ok t => codeBlock f.name t
    | .error e => errBlock f.name e
  | .pdfDoc =>
    docHeader f.name ++
      (match pdfText f with
       | .ok t => t
       | .error e => errBlock f.name e)
  | .docxDoc =>
    match f.docxText with
    | .ok t => docHeader f.name ++ t
    | .error e => errBlock f.name e
  | .slides =>
    slidesHeader f.name ++
      (match f.pptxShapes with
       | .ok ts => (ts.map (· ++ strL "\n")).flatten
       | .error e => errBlock f.name e)
  | .note =>
    match f.readText with
    | .ok t => noteBlock f.name t
    | .error e => errBlock f.name e
  | .video => videoBlockC f.name
  | .unsupported => []

/-- `extract_submission_text` of `src/eval.py`: sequential `+=` over the
walked files, then `.strip()`. -/
def extract_submission_text_A (files : List SFile) : List Char :=
  pyStrip ((files.map fileBlockA).flatten)

/-- `extract_submission_text` of `src/eval1.py`. -/
def extract_submission_text_B (files : List SFile) : List Char :=
  pyStrip ((files.map fileBlockB).flatten)

/-- `extract_submission_text` of `src/eval2.py` / `src/evaltable.py`. -/
def extract_submission_text_C (files : List SFile) : List Char :=
  pyStrip ((files.map fileBlockC).flatten)

/-- Round-half-to-even of `p / q` for positive `q` (the rounding Python's
builtin `round` performs). -/
def halfEvenDiv (p q : Int) : Int :=
  let fl := Int.fdiv p q
  let r := p - q * fl
  if 2 * r < q then fl
  else if 2 * r > q then fl + 1
  else if fl % 2 = 0 then fl else fl + 1

/-- Python `round(x, 1)` on the decimal `m / 10 ^ e`: an `int` (`e = 0`) is
returned unchanged; otherwise the value is rounded (half to even) to one
decimal place.  (Python rounds the binary-float value; the model rounds the
exact decimal, which agrees on the integer scores the scripts advertise.) -/
def pyRound1 (m : Int) (e : Nat) : Int × Nat :=
  if e = 0 then (m, 0)
  else (halfEvenDiv (m * 10) (10 ^ e), 1)

/-- The `total_score` normalizer of `src/eval1.py`:
`if isinstance(total_score, (int, float)) and total_score <= 10:`
`total_score = total_score * 10`.  On the decimal `m / 10 ^ e` the guard
`value ≤ 10` is `m ≤ 10 * 10 ^ e`; non-numbers are left untouched (the
`isinstance` guard fails; JSON booleans, which Python would treat as ints,
are outside the model). -/
def rescale_total_score (v : Json) : Json :=
  match v with
  | .num m e => if m ≤ 10 * 10 ^ e then .num (m * 10) e else .num m e
  | other => other

/-- The per-criterion normalizer of `src/eval1.py`:
`if isinstance(score, (int, float)) and score <= 10:`
`score = round(score * 3, 1)`. -/
def rescale_criterion_score (v : Json) : Json :=
  match v with
  | .num m e =>
    if m ≤ 10 * 10 ^ e then
      match pyRound1 (m * 3) e with
      | (m', e') => .num m' e'
    else .num m e
  | other => other

/-- One row of `all_results` in the multi-team scripts. -/
structure Entry where
  name : List Char
  score : Json
  summary : Json
  details : Json

/-- Mantissa of an entry's score (comparison of non-numeric scores raises
`TypeError` in Python's `sorted`; the claims quantify over numeric scores
only, and the model totalizes the comparator by reading a non-number as 0). -/
def scoreM (a : Entry) : Int :=
  match a.score with
  | .num m _ => m
  | _ => 0

/-- Decimal exponent of an entry's score. -/
def scoreE (a : Entry) : Nat :=
  match a.score with
  | .num _ e => e
  | _ => 0

/-- The sort relation of `sorted(all_results, key=lambda x: x["Score"], reverse=True)`:
`b`'s score is at most `a`'s, i.e. descending order; cross-multiplied form
of `mB / 10 ^ eB ≤ mA / 10 ^ eA`. -/
def scoreGe (a b : Entry) : Prop :=
  scoreM b * 10 ^ scoreE a ≤ scoreM a * 10 ^ scoreE b

instance : DecidableRel scoreGe := fun a b => by
  unfold scoreGe
  infer_instance

instance : IsTotal Entry scoreGe :=
  ⟨fun a b => Int.le_total (scoreM b * 10 ^ scoreE a) (scoreM a * 10 ^ scoreE b)⟩

instance : IsTrans Entry scoreGe := by
  constructor
  intro a b c h1 h2
  unfold scoreGe at h1 h2 ⊢
  have hpa : (0 : Int) < 10 ^ scoreE a := by positivity
  have hpb : (0 : Int) < 10 ^ scoreE b := by positivity
  have hpc : (0 : Int) < 10 ^ scoreE c := by positivity
  nlinarith [mul_le_mul_of_nonneg_right h1 (le_of_lt hpc),
             mul_le_mul_of_nonneg_right h2 (le_of_lt hpa)]

/-- `sorted(all_results, key=lambda x: x["Score"], reverse=True)`: Python's
sort is stable, and with `reverse=True` equal keys still keep their input
order; `List.insertionSort` with the descending relation computes exactly
that unique stable descending rearrangement. -/
def leaderboard (rs : List Entry) : List Entry :=
  List.insertionSort scoreGe rs

/-- `enumerate(leaderboard, start=1)`. -/
def withRanks : Nat → List Entry → List (Nat × Entry)
  | _, [] => []
  | k, e :: es => (k, e) :: withRanks (k + 1) es

/-- The ranked rows the multi-team scripts render. -/
def rankedLeaderboard (rs : List Entry) : List (Nat × Entry) :=
  withRanks 1 (leaderboard rs)

/-- Outcome of processing one uploaded archive: either the decoded reply
of `evaluate_submission` (a JSON value; the sentinel dict on parse
failure), or the message of the exception the extraction or the remote
call raised. -/
inductive TeamOutcome where
  | raises (msg : List Char)
  | returns (r : Json)

/-- One uploaded archive in the multi-team loop. -/
structure Team where
  name : List Char
  outcome : TeamOutcome

/-- Remove every (non-overlapping, left-to-right) occurrence of `pat`,
fuel-indexed for kernel computability. -/
def removeAllAux (pat : List Char) : Nat → List Char → List Char
  | 0, s => s
  | _ + 1, [] => []
  | fuel + 1, c :: cs =>
    if pat ≠ [] ∧ pat.isPrefixOf (c :: cs) then
      removeAllAux pat fuel ((c :: cs).drop pat.length)
    else c :: removeAllAux pat fuel cs

/-- Python `s.replace(pat, "")`. -/
def removeAll (pat s : List Char) : List Char := removeAllAux pat s.length s

/-- `upload_file.name.replace(".zip", "")`. -/
def stripZip (n : List Char) : List Char := removeAll (strL ".zip") n

/-- `result.get("status") == "Invalid Submission"` in `src/evaltable.py`
(a missing or non-string status compares unequal). -/
def isInvalidStatus (r : Json) : Bool :=
  match jsonGet (strL "status") r with
  | some (.str s) => s == strL "Invalid Submission"
  | _ => false

/-- Loop body of the multi-team flow in `src/eval2.py` (lines 129-152): a
raise during extraction or evaluation is caught and recorded as a
score-0 entry named by the raw file name; otherwise the entry carries
`total_score` (0 when the key is absent) and `summary` (defaulted), the
name with `.zip` removed, and the full decoded result.  (`returns r` with
`r` not a JSON object would raise in the result handling and is outside
the model.) -/
def processTeam2 (t : Team) : Entry :=
  match t.outcome with
  | .raises e => ⟨t.name, .num 0 0, .str (strL "Error: " ++ e), .obj []⟩
  | .returns r =>
    ⟨stripZip t.name,
     (jsonGet (strL "total_score") r).getD (.num 0 0),
     (jsonGet (strL "summary") r).getD (.str (strL "No summary")),
     r⟩

/-- The whole `for upload_file in uploads` loop of `src/eval2.py`: one
entry per upload, in order. -/
def processAll2 (ts : List Team) : List Entry := ts.map processTeam2

/-- Loop body of `src/evaltable.py` (lines 144-167): same as
`src/eval2.py` except that a decoded result whose `status` equals
`"Invalid Submission"` is skipped (`continue`) and contributes no entry. -/
def processTeamT (t : Team) : Option Entry :=
  match t.outcome with
  | .raises e => some ⟨t.name, .num 0 0, .str (strL "Error: " ++ e), .obj []⟩
  | .returns r =>
    if isInvalidStatus r then none
    else some
      ⟨stripZip t.name,
       (jsonGet (strL "total_score") r).getD (.num 0 0),
       (jsonGet (strL "summary") r).getD (.str (strL "No summary")),
       r⟩

/-- The whole evaluation loop of `src/evaltable.py`. -/
def processAllT (ts : List Team) : List Entry := ts.filterMap processTeamT

/-- Fixed prompt text of `src/eval2.py`'s `evaluate_submission` before the
rubric. -/
def promptPre : List Char :=
  strL "\nYou are an impartial AI evaluator for hackathon submissions.\n\nEvaluate the following submission using the given rubric:\n"

/-- Fixed prompt text between the rubric and the truncated submission. -/
def promptMid : List Char :=
  strL "\n\nSubmission:\n"

/-- Fixed prompt text after the truncated submission (the requested JSON
shape; braces appear here only as text of the template). -/
def promptPost : List Char :=
  strL "\n\nReturn a JSON in this exact format:\n\x7b\n  \"criteria\": [\n    \x7b\"name\": \"Relevance to the Problem and Tech Landscape\", \"score\": <0-30>, \"reason\": \"<why>\"\x7d,\n    \x7b\"name\": \"Innovation and Creativity\", \"score\": <0-15>, \"reason\": \"<why>\"\x7d,\n    \x7b\"name\": \"Feasibility and Scalability\", \"score\": <0-15>, \"reason\": \"<why>\"\x7d,\n    \x7b\"name\": \"Usage of GenAI and AI/ML Techniques\", \"score\": <0-20>, \"reason\": \"<why>\"\x7d,\n    \x7b\"name\": \"Teamwork and Presentation Quality\", \"score\": <0-20>, \"reason\": \"<why>\"\x7d\n  ],\n  \"total_score\": <sum_out_of_100>,\n  \"summary\": \"<short justification>\"\n\x7d\n    "

/-- The composed prompt of `src/eval2.py`'s `evaluate_submission`
(`src/eval.py` builds the same shape with its own fixed texts):
fixed instruction, rubric verbatim, `submission_text[:20000]`, fixed JSON
format request. -/
def evaluate_submission_prompt (rubric submission : List Char) : List Char :=
  promptPre ++ rubric ++ promptMid ++ submission.take 20000 ++ promptPost

/-- Sanity check of the `json.loads` model on a schema-shaped object. -/
theorem jsonLoads_sample :
    jsonLoads (strL "\x7b\"total_score\": 70, \"summary\": \"good\"\x7d") =
      some (.obj [(strL "total_score", .num 70 0), (strL "summary", .str (strL "good"))]) := by
  rfl

/-- Sanity check of the tolerant reply parser on a decorated reply with
arrays, decimals, exponents, booleans and null. -/
theorem parse_model_reply_sample :
    parse_model_reply (strL "Sure! \x7b\"a\": [1, 2.5, -3e1, true, null]\x7d thanks") =
      .obj [(strL "a", .arr [.num 1 0, .num 25 1, .num (-30) 0, .bool true, .null])] := by
  rfl

/-- A valid `Char.ofNat` round-trips through `toNat`. -/
theorem toNat_ofNat_valid (n : Nat) (h : n.isValidChar) : (Char.ofNat n).toNat = n := by
  simp [Char.ofNat, h]
  rfl

/-- Unfolding of `Char.toLower`. -/
theorem toLower_eq (c : Char) :
    Char.toLower c = if c.toNat ≥ 65 ∧ c.toNat ≤ 90 then Char.ofNat (c.toNat + 32) else c := rfl

/-- `Char.toLower` maps only `'.'` to `'.'`. -/
theorem toLower_ne_dot (c : Char) (h : c ≠ '.') : Char.toLower c ≠ '.' := by
  by_cases hc : c.toNat ≥ 65 ∧ c.toNat ≤ 90
  · rw [toLower_eq, if_pos hc]
    intro heq
    have hv : (c.toNat + 32).isValidChar := by left; omega
    have h2 : (Char.ofNat (c.toNat + 32)).toNat = c.toNat + 32 := toNat_ofNat_valid _ hv
    rw [heq] at h2
    have hdot : ('.').toNat = 46 := rfl
    omega
  · rw [toLower_eq, if_neg hc]
    exact h

/-- `firstIdx` finds the boundary of a satisfying-element-free prefix. -/
theorem firstIdx_eq_some_length (p : Char → Bool) (pre : List Char) (c0 : Char) (l : List Char)
    (hpre : ∀ c ∈ pre, p c = false) (hc : p c0 = true) :
    firstIdx p (pre ++ c0 :: l) = some pre.length := by
  induction pre with
  | nil => simp [firstIdx, hc]
  | cons d ds ih =>
    have hd : p d = false := hpre d (by simp)
    simp [firstIdx, hd, ih (fun c hcm => hpre c (by simp [hcm]))]

/-- `firstIdx` misses when nothing satisfies the predicate. -/
theorem firstIdx_eq_none (p : Char → Bool) (s : List Char)
    (h : ∀ c ∈ s, p c = false) : firstIdx p s = none := by
  induction s with
  | nil => rfl
  | cons d ds ih =>
    have hd : p d = false := h d (by simp)
    simp [firstIdx, hd, ih (fun c hcm => h c (by simp [hcm]))]

/-- A dot-free name is its own `split(".")[-1]`. -/
theorem afterLastDot_of_no_dot (s : List Char) (h : '.' ∉ s) : afterLastDot s = s := by
  unfold afterLastDot
  have : s.reverse.takeWhile (fun c => decide (c ≠ '.')) = s.reverse := by
    rw [List.takeWhile_eq_self_iff]
    intro c hcm
    simp only [decide_eq_true_eq]
    intro hcd
    exact h (by simpa [hcd] using List.mem_reverse.mp hcm)
  rw [this, List.reverse_reverse]

/-- Lowercasing cannot introduce a dot. -/
theorem lowerStr_no_dot (s : List Char) (h : '.' ∉ s) : '.' ∉ lowerStr s := by
  intro hmem
  obtain ⟨c, hc, heq⟩ := List.mem_map.mp hmem
  have hne : c ≠ '.' := fun hcd => h (hcd ▸ hc)
  exact toLower_ne_dot c hne heq

/-- Inserting an element satisfying `p` that sorts no later than every
`p`-element of `l` prepends it to the `p`-filtered list. -/
theorem filter_orderedInsert_pos {α : Type} (r : α → α → Prop) [DecidableRel r] (p : α → Bool)
    (a : α) (l : List α) (hpa : p a = true) (h : ∀ b ∈ l, p b = true → r a b) :
    (List.orderedInsert r a l).filter p = a :: l.filter p := by
  induction l with
  | nil => simp [List.orderedInsert, List.filter_cons, hpa]
  | cons b bs ih =>
    by_cases hr : r a b
    · simp [List.orderedInsert, if_pos hr, List.filter_cons, hpa]
    · have hpb : ¬ p b = true := by
        cases hpb : p b with
        | false => simp
        | true => exact absurd (h b (by simp) hpb) hr
      have hins : List.orderedInsert r a (b :: bs) = b :: List.orderedInsert r a bs := by
        simp [List.orderedInsert, if_neg hr]
      rw [hins, List.filter_cons_of_neg hpb,
        ih (fun x hx hpx => h x (by simp [hx]) hpx), List.filter_cons_of_neg hpb]

/-- Inserting an element not satisfying `p` leaves the `p`-filtered list
unchanged. -/
theorem filter_orderedInsert_neg {α : Type} (r : α → α → Prop) [DecidableRel r] (p : α → Bool)
    (a : α) (l : List α) (hpa : p a = false) :
    (List.orderedInsert r a l).filter p = l.filter p := by
  induction l with
  | nil => simp [List.orderedInsert, List.filter_cons, hpa]
  | cons b bs ih =>
    by_cases hr : r a b
    · have hins : List.orderedInsert r a (b :: bs) = a :: b :: bs := by
        simp [List.orderedInsert, if_pos hr]
      rw [hins, List.filter_cons_of_neg (by simp [hpa])]
    · have hins : List.orderedInsert r a (b :: bs) = b :: List.orderedInsert r a bs := by
        simp [List.orderedInsert, if_neg hr]
      rw [hins]
      simp only [List.filter_cons, ih]

/-- Stability of `List.insertionSort`: elements whose `p`-class is
mutually related keep their input order (their filtered subsequence is
untouched). -/
theorem filter_insertionSort {α : Type} (r : α → α → Prop) [DecidableRel r] (p : α → Bool)
    (hp : ∀ x y, p x = true → p y = true → r x y) :
    ∀ l : List α, (List.insertionSort r l).filter p = l.filter p := by
  intro l
  induction l with
  | nil => rfl
  | cons a l ih =>
    show (List.orderedInsert r a (List.insertionSort r l)).filter p = (a :: l).filter p
    cases hpa : p a with
    | true =>
      rw [filter_orderedInsert_pos r p a _ hpa (fun b _ hpb => hp a b hpa hpb), ih]
      simp [List.filter_cons, hpa]
    | false =>
      rw [filter_orderedInsert_neg r p a _ hpa, ih]
      simp [List.filter_cons, hpa]

/-- Claim C2 (amended): the `src/eval1.py` normalizer multiplies a numeric
`total_score` at or below 10 by 10 and leaves larger values unchanged
(`7 ↦ 70`, `70 ↦ 70`); a numeric per-criterion score at or below 10,
however, is multiplied by 3 (and `round`ed to one decimal), not by 10 —
it is mapped into a 0-30 weight band, not onto the 0-100 scale.  Scores
are the decimals `m / 10 ^ e`, on which `value ≤ 10` is `m ≤ 10 * 10 ^ e`. -/
theorem claim_C2 (m : Int) (e : Nat) :
    (m ≤ 10 * 10 ^ e → rescale_total_score (.num m e) = .num (m * 10) e) ∧
    (10 * 10 ^ e < m → rescale_total_score (.num m e) = .num m e) ∧
    (m ≤ 10 * 10 ^ e → rescale_criterion_score (.num m e) =
        .num (pyRound1 (m * 3) e).1 (pyRound1 (m * 3) e).2) ∧
    (10 * 10 ^ e < m → rescale_criterion_score (.num m e) = .num m e) ∧
    rescale_total_score (.num 7 0) = .num 70 0 ∧
    rescale_total_score (.num 70 0) = .num 70 0 ∧
    rescale_criterion_score (.num 7 0) = .num 21 0 := by
  refine ⟨fun h => ?_, fun h => ?_, fun h => ?_, fun h => ?_, rfl, rfl, rfl⟩
  · simp [rescale_total_score, if_pos h]
  · simp [rescale_total_score, if_neg (not_le.mpr h)]
  · simp [rescale_criterion_score, if_pos h]
  · simp [rescale_criterion_score, if_neg (not_le.mpr h)]

/-- Witness for C2 at concrete inputs: a total of 5 rescales to 50 and a
criterion score of 5 rescales to 15 (not 50). -/
theorem claim_C2_witness :
    rescale_total_score (.num 5 0) = .num 50 0 ∧
      rescale_criterion_score (.num 5 0) = .num 15 0 :=
  ⟨(claim_C2 5 0).1 (by decide), (claim_C2 5 0).2.2.1 (by decide)⟩

/-- Counterexample for C2 as stated: the per-criterion rescale of the
numeric score 7 yields 21, not the 70 an analogous ×10 rescale onto the
0-100 scale would give. -/
theorem claim_C2_counterexample :
    rescale_criterion_score (.num 7 0) = .num 21 0 ∧
      rescale_criterion_score (.num 7 0) ≠ .num 70 0 := by
  refine ⟨rfl, fun h => ?_⟩
  have h' : Json.num 21 0 = Json.num 70 0 := h
  injection h' with h1 h2
  exact absurd h1 (by decide)

/-- Claim C4: a reply with no opening brace makes the tolerant parser of
`src/eval2.py` / `src/evaltable.py` return the
`\x7b"error": "Invalid JSON", "raw": raw\x7d` sentinel carrying the reply
unmodified; the regex search and the fallback return are the only code
paths taken, so nothing can raise. -/
theorem claim_C4 (s : List Char) (h : '\x7b' ∉ s) :
    parse_model_reply s =
      .obj [(strL "error", .str (strL "Invalid JSON")), (strL "raw", .str s)] := by
  have hnone : firstIdx (· == '\x7b') s = none := by
    apply firstIdx_eq_none
    intro c hc
    simp only [beq_eq_false_iff_ne, ne_eq]
    exact fun hcb => h (hcb ▸ hc)
  unfold parse_model_reply jsonCandidate
  rw [hnone]

/-- Witness for C4 on a concrete brace-free reply. -/
theorem claim_C4_witness :
    parse_model_reply (strL "I cannot evaluate this.") =
      .obj [(strL "error", .str (strL "Invalid JSON")),
            (strL "raw", .str (strL "I cannot evaluate this."))] :=
  claim_C4 (strL "I cannot evaluate this.") (by decide)

/-- Claim C8: the composed prompt of `evaluate_submission` is the fixed
instruction text, the rubric verbatim, the first 20000 characters of the
submission text, and the fixed JSON format request; the prompt depends only
on `submission.take 20000` (content beyond the budget is dropped, with no
summarization), and a submission within the budget is embedded whole. -/
theorem claim_C8 (rubric submission : List Char) :
    evaluate_submission_prompt rubric submission =
      promptPre ++ rubric ++ promptMid ++ submission.take 20000 ++ promptPost ∧
    evaluate_submission_prompt rubric submission =
      evaluate_submission_prompt rubric (submission.take 20000) ∧
    (submission.length ≤ 20000 → evaluate_submission_prompt rubric submission =
      promptPre ++ rubric ++ promptMid ++ submission ++ promptPost) := by
  refine ⟨rfl, ?_, fun h => ?_⟩
  · unfold evaluate_submission_prompt
    rw [List.take_take, Nat.min_self]
  · unfold evaluate_submission_prompt
    rw [List.take_of_length_le h]

/-- Witness for C8 on a short concrete rubric and submission. -/
theorem claim_C8_witness :
    evaluate_submission_prompt (strL "Design - 30") (strL "print(1)") =
      promptPre ++ strL "Design - 30" ++ promptMid ++ strL "print(1)" ++ promptPost :=
  (claim_C8 (strL "Design - 30") (strL "print(1)")).2.2 (by decide)

/-- Claim C3: on a reply holding exactly one well-formed brace-delimited
JSON object and no other brace characters, the tolerant parser of
`src/eval2.py` (same regex-plus-`json.loads` block as `src/eval.py`)
selects precisely the substring from the first `\x7b` to the last `\x7d`
— which is that object — and returns its decode, so the resulting
structure's fields are exactly the object's (in particular the requested
schema's when the reply follows it, as in the witness). -/
theorem claim_C3 (preS inner postS : List Char) (v : Json)
    (hpre : ∀ c ∈ preS, c ≠ '\x7b' ∧ c ≠ '\x7d')
    (_hinner : ∀ c ∈ inner, c ≠ '\x7b' ∧ c ≠ '\x7d')
    (hpost : ∀ c ∈ postS, c ≠ '\x7b' ∧ c ≠ '\x7d')
    (hparse : jsonLoads ('\x7b' :: inner ++ ['\x7d']) = some v) :
    jsonCandidate (preS ++ ('\x7b' :: inner ++ ['\x7d']) ++ postS) =
      some ('\x7b' :: inner ++ ['\x7d']) ∧
    parse_model_reply (preS ++ ('\x7b' :: inner ++ ['\x7d']) ++ postS) = v := by
  have hs : preS ++ ('\x7b' :: inner ++ ['\x7d']) ++ postS
      = preS ++ '\x7b' :: (inner ++ '\x7d' :: postS) := by simp
  have hpre' : ∀ c ∈ preS, (c == '\x7b') = false := fun c hc => by
    simpa using (hpre c hc).1
  have hpost' : ∀ c ∈ postS.reverse, (c == '\x7d') = false := fun c hc => by
    simpa using (hpost c (List.mem_reverse.mp hc)).2
  have hfi : firstIdx (· == '\x7b') (preS ++ '\x7b' :: (inner ++ '\x7d' :: postS))
      = some preS.length := firstIdx_eq_some_length _ preS _ _ hpre' rfl
  have hlast : lastIdxOf '\x7d' (inner ++ '\x7d' :: postS) = some inner.length := by
    unfold lastIdxOf
    have hrev : (inner ++ '\x7d' :: postS).reverse
        = postS.reverse ++ '\x7d' :: inner.reverse := by simp
    rw [hrev, firstIdx_eq_some_length _ postS.reverse '\x7d' inner.reverse hpost' rfl]
    have hlen : (inner ++ '\x7d' :: postS).length - 1 - postS.reverse.length
        = inner.length := by
      simp [List.length_append]
    dsimp only
    rw [hlen]
  have hcand : jsonCandidate (preS ++ ('\x7b' :: inner ++ ['\x7d']) ++ postS)
      = some ('\x7b' :: inner ++ ['\x7d']) := by
    rw [hs]
    unfold jsonCandidate
    rw [hfi]
    dsimp only
    rw [List.drop_left preS]
    dsimp only [List.drop_succ_cons, List.drop_zero]
    rw [hlast]
    dsimp only
    rw [List.take_succ_cons]
    have h1 : inner ++ '\x7d' :: postS = (inner ++ ['\x7d']) ++ postS := by simp
    have h2 : inner.length + 1 = (inner ++ ['\x7d']).length := by simp
    rw [h1, h2, List.take_left, List.cons_append]
  refine ⟨hcand, ?_⟩
  unfold parse_model_reply
  rw [hcand]
  dsimp only
  rw [hparse]

/-- Witness for C3 on a concrete decorated reply whose single
brace-delimited object carries the requested fields. -/
theorem claim_C3_witness :
    jsonCandidate (strL "Evaluation: " ++
        ('\x7b' :: strL "\"total_score\": 70, \"summary\": \"solid work\"" ++ ['\x7d']) ++
        strL " Regards.") =
      some ('\x7b' :: strL "\"total_score\": 70, \"summary\": \"solid work\"" ++ ['\x7d']) ∧
    parse_model_reply (strL "Evaluation: " ++
        ('\x7b' :: strL "\"total_score\": 70, \"summary\": \"solid work\"" ++ ['\x7d']) ++
        strL " Regards.") =
      .obj [(strL "total_score", .num 70 0), (strL "summary", .str (strL "solid work"))] :=
  claim_C3 (strL "Evaluation: ") (strL "\"total_score\": 70, \"summary\": \"solid work\"")
    (strL " Regards.")
    (.obj [(strL "total_score", .num 70 0), (strL "summary", .str (strL "solid work"))])
    (by decide) (by decide) (by decide) (by rfl)

/-- Flattening a map to empty blocks yields the empty text. -/
theorem flatten_map_nil (files : List SFile) :
    (files.map (fun _ => ([] : List Char))).flatten = [] := by
  induction files with
  | nil => rfl
  | cons f fs ih => simp [ih]

/-- Claim C1 (amended): on an archive all of whose files have unsupported
extensions, the `src/eval.py` / `src/eval1.py` extractor returns exactly
one `[FILE: name - SKIPPED]` block per file (the stripped concatenation of
the per-file skip markers, in order) and, being a total function of the
blocks, cannot raise; the `src/eval2.py` / `src/evaltable.py` extractor,
whose dispatch has no `else` branch, emits no marker at all for such files
and returns the empty text. -/
theorem claim_C1 (files : List SFile)
    (h : ∀ f ∈ files, dispatchCat f.name = .unsupported) :
    extract_submission_text_A files =
      pyStrip ((files.map (fun f => skipBlock f.name)).flatten) ∧
    extract_submission_text_B files =
      pyStrip ((files.map (fun f => skipBlock f.name)).flatten) ∧
    extract_submission_text_C files = [] := by
  have hA : files.map fileBlockA = files.map (fun f => skipBlock f.name) :=
    List.map_congr_left (fun f hf => by simp [fileBlockA, h f hf])
  have hB : files.map fileBlockB = files.map (fun f => skipBlock f.name) :=
    List.map_congr_left (fun f hf => by simp [fileBlockB, h f hf])
  have hC : files.map fileBlockC = files.map (fun _ => ([] : List Char)) :=
    List.map_congr_left (fun f hf => by simp [fileBlockC, h f hf])
  refine ⟨?_, ?_, ?_⟩
  · unfold extract_submission_text_A
    rw [hA]
  · unfold extract_submission_text_B
    rw [hB]
  · unfold extract_submission_text_C
    rw [hC, flatten_map_nil]
    rfl

/-- Witness for C1 on a concrete two-file all-unsupported archive. -/
theorem claim_C1_witness :
    extract_submission_text_A
        [⟨strL "a.xyz", .ok [], .ok [], .ok [], .ok [], .ok []⟩,
         ⟨strL "b.rtf", .ok [], .ok [], .ok [], .ok [], .ok []⟩] =
      pyStrip ((([⟨strL "a.xyz", .ok [], .ok [], .ok [], .ok [], .ok []⟩,
         ⟨strL "b.rtf", .ok [], .ok [], .ok [], .ok [], .ok []⟩] : List SFile).map
          (fun f => skipBlock f.name)).flatten) ∧
    extract_submission_text_B
        [⟨strL "a.xyz", .ok [], .ok [], .ok [], .ok [], .ok []⟩,
         ⟨strL "b.rtf", .ok [], .ok [], .ok [], .ok [], .ok []⟩] =
      pyStrip ((([⟨strL "a.xyz", .ok [], .ok [], .ok [], .ok [], .ok []⟩,
         ⟨strL "b.rtf", .ok [], .ok [], .ok [], .ok [], .ok []⟩] : List SFile).map
          (fun f => skipBlock f.name)).flatten) ∧
    extract_submission_text_C
        [⟨strL "a.xyz", .ok [], .ok [], .ok [], .ok [], .ok []⟩,
         ⟨strL "b.rtf", .ok [], .ok [], .ok [], .ok [], .ok []⟩] = [] :=
  claim_C1
    [⟨strL "a.xyz", .ok [], .ok [], .ok [], .ok [], .ok []⟩,
     ⟨strL "b.rtf", .ok [], .ok [], .ok [], .ok [], .ok []⟩] (by decide)

/-- Counterexample for C1 as stated: the `src/eval2.py` extractor (which
the claim also covers) emits zero `SKIPPED` markers for an archive with
one unsupported file, where `src/eval.py` emits one. -/
theorem claim_C1_counterexample :
    countOccur (strL "- SKIPPED]")
        (extract_submission_text_C
          [⟨strL "data.xyz", .ok [], .ok [], .ok [], .ok [], .ok []⟩]) = 0 ∧
    countOccur (strL "- SKIPPED]")
        (extract_submission_text_A
          [⟨strL "data.xyz", .ok [], .ok [], .ok [], .ok [], .ok []⟩]) = 1 := by
  decide

/-- Claim C7: in `src/eval.py` and `src/eval1.py` a file whose extraction
raises contributes exactly its one `[FILE: name - ERROR]` block carrying
the file name and message — for a PDF or a slide deck, after the
already-appended document/slides header, since those branches append it
in a separate `+=` before the fallible library call — and the surrounding
files' blocks are computed independently before and after it, so the loop
continues.  The conjuncts cover every fallible dispatch branch of both
scripts (code and txt/md reads, docx conversion, pdf extraction with its
fallback, pptx parsing); the video and skipped branches append pure
literals and make no fallible call. -/
theorem claim_C7 (pre post : List SFile) (f : SFile) (msg : List Char) :
    (dispatchCat f.name = .note → f.readText = .error msg →
      fileBlockA f = errBlock f.name msg) ∧
    (dispatchCat f.name = .code → f.readText = .error msg →
      fileBlockA f = errBlock f.name msg) ∧
    (dispatchCat f.name = .docxDoc → f.docxText = .error msg →
      fileBlockA f = errBlock f.name msg) ∧
    (dispatchCat f.name = .pdfDoc → pdfText f = .error msg →
      fileBlockA f = docHeader f.name ++ errBlock f.name msg) ∧
    (dispatchCat f.name = .slides → f.pptxShapes = .error msg →
      fileBlockA f = slidesHeader f.name ++ errBlock f.name msg) ∧
    (dispatchCat f.name = .note → f.readText = .error msg →
      fileBlockB f = errBlock f.name msg) ∧
    (dispatchCat f.name = .code → f.readText = .error msg →
      fileBlockB f = errBlock f.name msg) ∧
    (dispatchCat f.name = .docxDoc → f.docxText = .error msg →
      fileBlockB f = errBlock f.name msg) ∧
    (dispatchCat f.name = .pdfDoc → pdfText f = .error msg →
      fileBlockB f = docHeader f.name ++ errBlock f.name msg) ∧
    (dispatchCat f.name = .slides → f.pptxShapes = .error msg →
      fileBlockB f = slidesHeader f.name ++ errBlock f.name msg) ∧
    extract_submission_text_A (pre ++ f :: post) =
      pyStrip ((pre.map fileBlockA).flatten ++ fileBlockA f ++ (post.map fileBlockA).flatten) ∧
    extract_submission_text_B (pre ++ f :: post) =
      pyStrip ((pre.map fileBlockB).flatten ++ fileBlockB f ++ (post.map fileBlockB).flatten) := by
  refine ⟨fun h1 h2 => ?_, fun h1 h2 => ?_, fun h1 h2 => ?_, fun h1 h2 => ?_,
    fun h1 h2 => ?_, fun h1 h2 => ?_, fun h1 h2 => ?_, fun h1 h2 => ?_,
    fun h1 h2 => ?_, fun h1 h2 => ?_, ?_, ?_⟩
  · simp [fileBlockA, h1, h2]
  · simp [fileBlockA, h1, h2]
  · simp [fileBlockA, h1, h2]
  · simp [fileBlockA, h1, h2]
  · simp [fileBlockA, h1, h2]
  · simp [fileBlockB, h1, h2]
  · simp [fileBlockB, h1, h2]
  · simp [fileBlockB, h1, h2]
  · simp [fileBlockB, h1, h2]
  · simp [fileBlockB, h1, h2]
  · unfold extract_submission_text_A
    simp [List.map_append, List.flatten_append, List.append_assoc]
  · unfold extract_submission_text_B
    simp [List.map_append, List.flatten_append, List.append_assoc]

/-- Witness for C7: a concrete undecodable text file contributes exactly
its error marker, and a concrete corrupt slide deck contributes the
slides header followed by its error marker, in both scripts. -/
theorem claim_C7_witness :
    fileBlockA ⟨strL "notes.txt", .error (strL "invalid utf-8"), .ok [], .ok [], .ok [], .ok []⟩ =
      errBlock (strL "notes.txt") (strL "invalid utf-8") ∧
    fileBlockA ⟨strL "deck.pptx", .ok [], .ok [], .ok [], .ok [], .error (strL "bad zip")⟩ =
      slidesHeader (strL "deck.pptx") ++ errBlock (strL "deck.pptx") (strL "bad zip") ∧
    fileBlockB ⟨strL "deck.pptx", .ok [], .ok [], .ok [], .ok [], .error (strL "bad zip")⟩ =
      slidesHeader (strL "deck.pptx") ++ errBlock (strL "deck.pptx") (strL "bad zip") :=
  ⟨(claim_C7 [] [] ⟨strL "notes.txt", .error (strL "invalid utf-8"), .ok [], .ok [], .ok [], .ok []⟩
      (strL "invalid utf-8")).1 (by decide) rfl,
   (claim_C7 [] [] ⟨strL "deck.pptx", .ok [], .ok [], .ok [], .ok [], .error (strL "bad zip")⟩
      (strL "bad zip")).2.2.2.2.1 (by decide) rfl,
   (claim_C7 [] [] ⟨strL "deck.pptx", .ok [], .ok [], .ok [], .ok [], .error (strL "bad zip")⟩
      (strL "bad zip")).2.2.2.2.2.2.2.2.2.1 (by decide) rfl⟩

/-- Claim C9 (amended): the extractor's dispatch is determined solely by
`f.lower().split(".")[-1]` — so matching is case-insensitive
(`MAIN.PY` is code) and a dotless name is dispatched on its entire
lowercased self — but such a name falls to the unsupported branch only
when it is not itself one of the recognized extensions: a file literally
named `py` is dispatched as code. -/
theorem claim_C9 (name : List Char) :
    dispatchCat name = extCategory (afterLastDot (lowerStr name)) ∧
    dispatchCat (strL "MAIN.PY") = .code ∧
    ('.' ∉ name → extOf name = lowerStr name) ∧
    ('.' ∉ name → extCategory (lowerStr name) = .unsupported →
      dispatchCat name = .unsupported) ∧
    dispatchCat (strL "py") = .code := by
  refine ⟨rfl, by decide, fun h => ?_, fun h h2 => ?_, by decide⟩
  · unfold extOf
    exact afterLastDot_of_no_dot _ (lowerStr_no_dot name h)
  · unfold dispatchCat extOf
    rw [afterLastDot_of_no_dot _ (lowerStr_no_dot name h)]
    exact h2

/-- Witness for C9: a dotless name dispatches on its whole lowercased
self, and an unrecognized one is skipped. -/
theorem claim_C9_witness :
    extOf (strL "README") = lowerStr (strL "README") ∧
      dispatchCat (strL "README") = .unsupported :=
  ⟨(claim_C9 (strL "README")).2.2.1 (by decide),
   (claim_C9 (strL "README")).2.2.2.1 (by decide) (by decide)⟩

/-- Counterexample for C9 as stated: the dotless filename `py` does not
fall to the unsupported/skipped handling — it is dispatched as code. -/
theorem claim_C9_counterexample :
    ('.' ∈ strL "py" → False) ∧ dispatchCat (strL "py") = FileCat.code ∧
      FileCat.code ≠ FileCat.unsupported := by
  decide

/-- Claim C5: the leaderboard of the multi-team scripts
(`sorted(..., key=lambda x: x["Score"], reverse=True)` then
`enumerate(..., start=1)`) is a permutation of the results, sorted by
descending score, with score-equal entries kept in input order (stability,
stated as: the subsequence of entries of any fixed score value is
unchanged); on scores 55, 90, 90 the two 90-entries take ranks 1 and 2 in
input order and the 55-entry rank 3. -/
theorem claim_C5 (rs : List Entry) (v : Int × Nat) :
    List.Sorted scoreGe (leaderboard rs) ∧
    (leaderboard rs).Perm rs ∧
    (leaderboard rs).filter (fun x => scoreM x * 10 ^ v.2 == v.1 * 10 ^ scoreE x) =
      rs.filter (fun x => scoreM x * 10 ^ v.2 == v.1 * 10 ^ scoreE x) ∧
    rankedLeaderboard
        [⟨strL "teamA", .num 55 0, .null, .null⟩,
         ⟨strL "teamB", .num 90 0, .null, .null⟩,
         ⟨strL "teamC", .num 90 0, .null, .null⟩] =
      [(1, ⟨strL "teamB", .num 90 0, .null, .null⟩),
       (2, ⟨strL "teamC", .num 90 0, .null, .null⟩),
       (3, ⟨strL "teamA", .num 55 0, .null, .null⟩)] := by
  refine ⟨List.sorted_insertionSort scoreGe rs, List.perm_insertionSort scoreGe rs, ?_, ?_⟩
  · apply filter_insertionSort
    intro x y hx hy
    have hx' : scoreM x * 10 ^ v.2 = v.1 * 10 ^ scoreE x := by simpa using hx
    have hy' : scoreM y * 10 ^ v.2 = v.1 * 10 ^ scoreE y := by simpa using hy
    unfold scoreGe
    have hkey : (scoreM y * 10 ^ scoreE x) * 10 ^ v.2 = (scoreM x * 10 ^ scoreE y) * 10 ^ v.2 := by
      linear_combination ((10 : ℤ) ^ scoreE x) * hy' - ((10 : ℤ) ^ scoreE y) * hx'
    have hne : ((10 : ℤ) ^ v.2) ≠ 0 := by positivity
    exact le_of_eq (mul_right_cancel₀ hne hkey)
  · rfl

/-- Claim C6: in the batch loop of `src/eval2.py` a submission whose
processing raises still yields an entry — raw name, score 0, summary
`"Error: <msg>"`, empty details — in place, the batch keeps one entry per
upload, and the `src/evaltable.py` loop does the same for raises. -/
theorem claim_C6 (pre post : List Team) (t : Team) (msg : List Char)
    (h : t.outcome = .raises msg) :
    processAll2 (pre ++ t :: post) =
      processAll2 pre ++
        (⟨t.name, .num 0 0, .str (strL "Error: " ++ msg), .obj []⟩ : Entry) :: processAll2 post ∧
    (processAll2 (pre ++ t :: post)).length = (pre ++ t :: post).length ∧
    processAllT (pre ++ t :: post) =
      processAllT pre ++
        (⟨t.name, .num 0 0, .str (strL "Error: " ++ msg), .obj []⟩ : Entry) :: processAllT post := by
  have hpt2 : processTeam2 t = ⟨t.name, .num 0 0, .str (strL "Error: " ++ msg), .obj []⟩ := by
    unfold processTeam2
    rw [h]
  have hptT : processTeamT t =
      some ⟨t.name, .num 0 0, .str (strL "Error: " ++ msg), .obj []⟩ := by
    unfold processTeamT
    rw [h]
  refine ⟨?_, ?_, ?_⟩
  · unfold processAll2
    rw [List.map_append, List.map_cons, hpt2]
  · unfold processAll2
    simp
  · unfold processAllT
    simp [List.filterMap_append, List.filterMap_cons, hptT]

/-- Witness for C6: a concrete two-upload batch whose second archive
raises still produces the score-0 error entry in place. -/
theorem claim_C6_witness :
    processAll2 [⟨strL "t1.zip", .returns (.obj [(strL "total_score", .num 80 0)])⟩,
                 ⟨strL "t2.zip", .raises (strL "Bad zip file")⟩] =
      processAll2 [⟨strL "t1.zip", .returns (.obj [(strL "total_score", .num 80 0)])⟩] ++
        (⟨strL "t2.zip", .num 0 0, .str (strL "Error: " ++ strL "Bad zip file"), .obj []⟩ : Entry) ::
          processAll2 [] :=
  (claim_C6 [⟨strL "t1.zip", .returns (.obj [(strL "total_score", .num 80 0)])⟩] []
    ⟨strL "t2.zip", .raises (strL "Bad zip file")⟩ (strL "Bad zip file") rfl).1

/-- Claim C10: in `src/evaltable.py`, a decoded result whose `status` is
`"Invalid Submission"` is skipped (`continue`) — the results list is as if
that upload were absent, so it never reaches the leaderboard — whereas a
submission that raises still yields a score-0 error entry. -/
theorem claim_C10 (pre post : List Team) (t : Team) (r : Json)
    (hout : t.outcome = .returns r) (hinv : isInvalidStatus r = true) :
    processAllT (pre ++ t :: post) = processAllT pre ++ processAllT post ∧
    processAllT (pre ++ t :: post) = processAllT (pre ++ post) ∧
    (∀ u : Team, ∀ msg : List Char, u.outcome = .raises msg →
      processTeamT u = some ⟨u.name, .num 0 0, .str (strL "Error: " ++ msg), .obj []⟩) := by
  have hpt : processTeamT t = none := by
    unfold processTeamT
    rw [hout]
    simp [hinv]
  refine ⟨?_, ?_, ?_⟩
  · simp [processAllT, List.filterMap_append, List.filterMap_cons, hpt]
  · simp [processAllT, List.filterMap_append, List.filterMap_cons, hpt]
  · intro u msg hu
    unfold processTeamT
    rw [hu]

/-- Witness for C10: a batch of one valid and one invalid-status upload
produces the same results list as the valid upload alone. -/
theorem claim_C10_witness :
    processAllT [⟨strL "good.zip", .returns (.obj [(strL "status", .str (strL "Valid Submission")),
                    (strL "total_score", .num 75 0)])⟩,
                 ⟨strL "resume.zip", .returns (.obj [(strL "status", .str (strL "Invalid Submission")),
                    (strL "reason", .str (strL "no technical content"))])⟩] =
      processAllT [⟨strL "good.zip", .returns (.obj [(strL "status", .str (strL "Valid Submission")),
                    (strL "total_score", .num 75 0)])⟩] ++ processAllT [] :=
  (claim_C10 [⟨strL "good.zip", .returns (.obj [(strL "status", .str (strL "Valid Submission")),
      (strL "total_score", .num 75 0)])⟩] []
    ⟨strL "resume.zip", .returns (.obj [(strL "status", .str (strL "Invalid Submission")),
      (strL "reason", .str (strL "no technical content"))])⟩
    (.obj [(strL "status", .str (strL "Invalid Submission")),
      (strL "reason", .str (strL "no technical content"))]) rfl (by decide)).1
